import Mathlib

/-!
Verification of the GazelleSort snatch-discovery and file-organization
pipeline (src/gazellesort.py) against its natural-language specification.

The Python program is shallowly embedded: dictionaries decoded from JSON
become association lists, possibly-absent dictionary keys become `Option`
fields, raised exceptions become `Except PyExc`, and Python integers
(arbitrary precision) become `Int`/`Nat`.  Every definition below is
translated directly from the source file; line numbers refer to
src/gazellesort.py.
-/

namespace GazelleSortModel

/-- A raised Python exception: its class name and its message.  The source
defines a single exception class `GazelleSort.RequestException`
(gazellesort.py:31); builtin exceptions such as `KeyError` keep their
Python class names. -/
structure PyExc where
  cls : String
  msg : String
deriving DecidableEq

/-- `KeyError` raised by a failed dictionary subscript `d[k]`. -/
def keyError (k : String) : PyExc := ⟨"KeyError", k⟩

/-- Looking up a possibly-absent dictionary entry: `some` yields the value,
`none` raises `KeyError` on the subscripted key, as Python does. -/
def req {α : Type} (o : Option α) (k : String) : Except PyExc α :=
  match o with
  | some a => Except.ok a
  | none => Except.error (keyError k)

/-- A decoded JSON value as a Python object: strings, integers and
dictionaries (the shapes the program manipulates). -/
inductive PyVal where
  | str (s : String)
  | int (n : Int)
  | dict (fields : List (String × PyVal))

/-- Python dictionary lookup over the key/value pairs of a decoded JSON
object.  A later duplicate key overrides an earlier one, as in `dict`
construction, hence the reverse-order search. -/
def dictGet {α : Type} (m : List (String × α)) (k : String) : Option α :=
  (m.reverse.find? (fun p => p.1 == k)).map Prod.snd

/-- The `pattern` sub-object of the configuration (gazellesort.py:64-69):
template string, various-artists label, artist joiner, and the threshold on
the number of individually listed artists. -/
structure PatternConfig where
  string : String
  variousartists : String
  artistjoiner : String
  listindividualartists : Int

/-- The configuration fields the pipeline reads (gazellesort.py:52-70):
the torrent directory, the category-to-destination mapping `destdirs`, and
the naming pattern. -/
structure Config where
  torrentdir : String
  destdirs : List (String × String)
  pattern : PatternConfig

/-- One entry of `torrentdata["group"]["musicInfo"]["artists"]`; the
`name` key may be absent, hence `Option`. -/
structure ArtistInfo where
  name : Option String

/-- `torrentdata["group"]["musicInfo"]`. -/
structure MusicInfo where
  artists : Option (List ArtistInfo)

/-- `torrentdata["group"]`: group name, year and music info, each possibly
absent from the API response. -/
structure GroupInfo where
  name : Option String
  year : Option Int
  musicInfo : Option MusicInfo

/-- `torrentdata["torrent"]`: format, encoding and file path, each possibly
absent from the API response. -/
structure TorrentInfo where
  format : Option String
  encoding : Option String
  filePath : Option String

/-- The per-release metadata payload stored in `self.torrentdata[id]`
(gazellesort.py:203). -/
structure TorrentData where
  group : Option GroupInfo
  torrent : Option TorrentInfo

/-- Python string comparison on lists of characters: lexicographic by
Unicode code point, as `str < str` compares in Python. -/
def charListLe : List Char → List Char → Bool
  | [], _ => true
  | _ :: _, [] => false
  | a :: as, b :: bs =>
    if a.toNat < b.toNat then true
    else if b.toNat < a.toNat then false
    else charListLe as bs

/-- Python `str <= str`: code-point lexicographic order. -/
def strLe (a b : String) : Bool := charListLe a.data b.data

/-- Insert a string into a sorted list, keeping `strLe` order (helper for
the model of the Python builtin `sorted`). -/
def insertStr (a : String) : List String → List String
  | [] => [a]
  | b :: bs => if strLe a b then a :: b :: bs else b :: insertStr a bs

/-- The Python builtin `sorted` on a list of strings (gazellesort.py:212):
a stable sort by code-point lexicographic order.  Because `strLe` is a
total antisymmetric order on strings, every correct sort produces this
same list, so insertion sort models `sorted` exactly. -/
def sortStrings : List String → List String
  | [] => []
  | a :: as => insertStr a (sortStrings as)

/-- The list comprehension `[artist["name"] for artist in artists]`
(gazellesort.py:212): extracts every artist name, raising `KeyError` on the
first artist entry lacking a `name` key. -/
def artistNames : List ArtistInfo → Except PyExc (List String)
  | [] => Except.ok []
  | a :: rest => do
    let n ← req a.name "name"
    let ns ← artistNames rest
    Except.ok (n :: ns)

mutual

/-- Python percent-formatting with a mapping, `template % formatdata`
(gazellesort.py:222), modelled for the `%(key)s` conversions and the `%%`
escape that the naming pattern uses: literal characters are copied, each
`%(key)s` is replaced by the value bound to `key`, an unknown key raises
`KeyError`, and any other conversion raises `ValueError`. -/
def pyFormatChars (m : List (String × String)) : List Char → Except PyExc (List Char)
  | [] => Except.ok []
  | '%' :: '(' :: rest => pyFormatKey m [] rest
  | '%' :: '%' :: rest => (pyFormatChars m rest).map (fun t => '%' :: t)
  | '%' :: _ => Except.error ⟨"ValueError", "unsupported format character"⟩
  | c :: rest => (pyFormatChars m rest).map (fun t => c :: t)
termination_by l => l.length
decreasing_by all_goals simp_arith

/-- Helper for `pyFormatChars`: accumulates the characters of a `%(key)s`
placeholder key until the closing parenthesis. -/
def pyFormatKey (m : List (String × String)) (acc : List Char) : List Char → Except PyExc (List Char)
  | [] => Except.error ⟨"ValueError", "incomplete format key"⟩
  | ')' :: 's' :: rest =>
    match dictGet m (String.mk acc) with
    | some v => (pyFormatChars m rest).map (fun t => v.data ++ t)
    | none => Except.error (keyError (String.mk acc))
  | ')' :: _ => Except.error ⟨"ValueError", "unsupported format character"⟩
  | c :: rest => pyFormatKey m (acc ++ [c]) rest
termination_by l => l.length
decreasing_by all_goals simp_arith

end

/-- `template % formatdata` on strings. -/
def pyFormat (template : String) (m : List (String × String)) : Except PyExc String :=
  (pyFormatChars m template.data).map String.mk

/-- `GazelleSort.renderName` (gazellesort.py:207-224): chooses the artist
field (various-artists label when the artist count exceeds the configured
threshold, otherwise the sorted artist names joined by the configured
joiner), then percent-formats the pattern template with artist, album,
year and format.  Dictionary accesses are performed in source order, so the
exception raised is the `KeyError` of the first absent field. -/
def renderName (cfg : Config) (td : TorrentData) : Except PyExc String := do
  let g ← req td.group "group"
  let mi ← req g.musicInfo "musicInfo"
  let artists ← req mi.artists "artists"
  let artist ←
    if (artists.length : Int) > cfg.pattern.listindividualartists then
      Except.ok cfg.pattern.variousartists
    else do
      let names ← artistNames artists
      Except.ok (String.intercalate cfg.pattern.artistjoiner (sortStrings names))
  let t ← req td.torrent "torrent"
  let fileformat ← req t.format "format"
  let album ← req g.name "name"
  let year ← req g.year "year"
  pyFormat cfg.pattern.string
    [("artist", artist), ("album", album), ("year", toString year), ("format", fileformat)]

/-- The format/encoding decision table inlined in `GazelleSort.processFiles`
(gazellesort.py:230-241), as a pure function of the two field values: empty
format and `MP3` (a `TODO` in the source) and every unrecognized format
leave `desttype` at `None`; `FLAC` resolves to `flac24bit` on `24bit
Lossless` encoding and to `flac` otherwise. -/
def classify (format encoding : String) : Option String :=
  if format = "" then none
  else if format = "FLAC" then
    some (if encoding = "24bit Lossless" then "flac24bit" else "flac")
  else none

/-- `os.path.join(a, b)` for two POSIX path strings (gazellesort.py:246-247):
an absolute second component replaces the first; otherwise the components
are joined with a single separator. -/
def joinPath (a b : String) : String :=
  match b.data with
  | '/' :: _ => b
  | _ =>
    match a.data with
    | [] => b
    | _ => if a.data.getLast? = some '/' then a ++ b else a ++ "/" ++ b

/-- `filePath.replace("/", "\\/")` (gazellesort.py:246): every slash in the
file path is replaced by a backslash-slash pair before joining. -/
def escSlashChars : List Char → List Char
  | [] => []
  | c :: rest => if c = '/' then '\\' :: '/' :: escSlashChars rest else c :: escSlashChars rest

/-- `html.unescape` (gazellesort.py:250), modelled on the common HTML
entities `&amp;` `&lt;` `&gt;` `&quot;` `&#39;`; the stdlib function
recognizes a larger entity table, and agrees with this model on every
string whose entities come from this set (in particular on entity-free
strings, where both are the identity). -/
def htmlUnescapeChars : List Char → List Char
  | [] => []
  | '&' :: 'a' :: 'm' :: 'p' :: ';' :: rest => '&' :: htmlUnescapeChars rest
  | '&' :: 'l' :: 't' :: ';' :: rest => '<' :: htmlUnescapeChars rest
  | '&' :: 'g' :: 't' :: ';' :: rest => '>' :: htmlUnescapeChars rest
  | '&' :: 'q' :: 'u' :: 'o' :: 't' :: ';' :: rest => '"' :: htmlUnescapeChars rest
  | '&' :: '#' :: '3' :: '9' :: ';' :: rest => Char.ofNat 39 :: htmlUnescapeChars rest
  | c :: rest => c :: htmlUnescapeChars rest

/-- `html.unescape` on strings. -/
def htmlUnescape (s : String) : String := String.mk (htmlUnescapeChars s.data)

/-- One iteration of the loop body of `GazelleSort.processFiles`
(gazellesort.py:227-250) for one release: resolve the destination type from
the format/encoding decision table; when the resolved type is a key of
`destdirs`, compute the hard-link source and destination directory strings
handed to `cp -Rl` (gazellesort.py:250); otherwise produce no placement.
`Except.ok none` is a skipped release, `Except.ok (some (src, dest))` is a
placement, `Except.error` is an uncaught Python exception. -/
def processOne (cfg : Config) (td : TorrentData) : Except PyExc (Option (String × String)) := do
  let t ← req td.torrent "torrent"
  let format ← req t.format "format"
  if format = "" then
    Except.ok none
  else do
    let desttype ←
      if format = "FLAC" then do
        let enc ← req t.encoding "encoding"
        Except.ok (some (if enc = "24bit Lossless" then "flac24bit" else "flac"))
      else
        Except.ok (none : Option String)
    match desttype with
    | none => Except.ok none
    | some dt =>
      match dictGet cfg.destdirs dt with
      | none => Except.ok none
      | some destdir => do
        let fp ← req t.filePath "filePath"
        let olddir := joinPath cfg.torrentdir (String.mk (escSlashChars fp.data))
        let name ← renderName cfg td
        let newdir := joinPath destdir name
        Except.ok (some (htmlUnescape olddir, htmlUnescape newdir))

/-- The loop of `GazelleSort.processFiles` (gazellesort.py:227) over the
stored release metadata, in insertion order of `self.torrentdata`.  The
result collects the `cp -Rl` source/destination pairs of every placed
release; an exception raised while processing one release is uncaught in
the source, so it aborts the whole loop, which the `Except` bind models. -/
def processFiles (cfg : Config) : List TorrentData → Except PyExc (List (String × String))
  | [] => Except.ok []
  | td :: rest => do
    let p ← processOne cfg td
    let ps ← processFiles cfg rest
    Except.ok (match p with | some pl => pl :: ps | none => ps)

/-- A hexadecimal digit, the character class `[\da-fA-F]` of the redaction
regular expression (gazellesort.py:138); `\d` is modelled as the ASCII
decimal digits, which covers every authentication key and URL the tracker
produces. -/
def hexDigit (c : Char) : Bool :=
  c.isDigit || (Nat.ble 97 c.toNat && Nat.ble c.toNat 102) || (Nat.ble 65 c.toNat && Nat.ble c.toNat 70)

/-- `re.sub("auth=[\da-fA-F]+", "auth=REDACTED", url)` (gazellesort.py:138):
left-to-right, non-overlapping replacement of every `auth=` key by the
redaction marker.  On a failed partial match the scan advances one
character, exactly as the regex engine restarts one position later (no
shorter restart can succeed, since a match begins with the letter a). -/
def redactChars : List Char → List Char
  | 'a' :: 'u' :: 't' :: 'h' :: '=' :: rest =>
    if (rest.takeWhile hexDigit).isEmpty then
      'a' :: 'u' :: 't' :: 'h' :: '=' :: redactChars rest
    else
      "auth=REDACTED".data ++ redactChars (rest.dropWhile hexDigit)
  | c :: rest => c :: redactChars rest
  | [] => []
termination_by l => l.length
decreasing_by
  · simp_arith
  · have h := (List.dropWhile_sublist (l := rest) hexDigit).length_le
    simp_arith
    omega
  · simp_arith

/-- `str(v)` as the string-formatting of gazellesort.py:138 applies it to
the API's `error` field: identity on strings, decimal rendering of
integers.  The dictionary shape, which the API never returns in that field
and no theorem below depends on, is rendered as a fixed marker. -/
def pyStr : PyVal → String
  | PyVal.str s => s
  | PyVal.int n => toString n
  | PyVal.dict _ => "{...}"

/-- What `GazelleSort.ajaxrequest` observes of the HTTP response
(gazellesort.py:131-133): the final URL, the status code, and the decoded
JSON body — `none` when the body is not valid JSON (in which case
`response.json()` raises `json.JSONDecodeError`), otherwise the top-level
object's key/value pairs. -/
structure ApiResponse where
  url : String
  statusCode : Nat
  body : Option (List (String × PyVal))

/-- `GazelleSort.ajaxrequest` (gazellesort.py:121-142) after the HTTP GET:
a body whose `status` is `"success"` returns the whole decoded object;
a recognized failure raises `RequestException` with the auth key redacted
from the echoed URL and the server's error text; a failure without an
`error` field raises `RequestException` with the URL unredacted; a
non-JSON body raises `RequestException` carrying the HTTP status code.
All three raises construct the same class, `GazelleSort.RequestException`
(gazellesort.py:31); a decoded body lacking `status` raises the builtin
`KeyError`, which `except json.JSONDecodeError` does not catch. -/
def ajaxrequest (resp : ApiResponse) : Except PyExc PyVal :=
  match resp.body with
  | none =>
    Except.error ⟨"GazelleSort.RequestException",
      "Request didn't return any JSON. HTTP status code: " ++ toString resp.statusCode⟩
  | some decoded =>
    match dictGet decoded "status" with
    | none => Except.error (keyError "status")
    | some st =>
      if (match st with | PyVal.str s => s = "success" | _ => False : Bool) then
        Except.ok (PyVal.dict decoded)
      else
        match dictGet decoded "error" with
        | some err =>
          Except.error ⟨"GazelleSort.RequestException",
            "Request '" ++ String.mk (redactChars resp.url.data) ++ "' failed. Error: " ++ pyStr err⟩
        | none =>
          Except.error ⟨"GazelleSort.RequestException",
            "Request '" ++ resp.url ++ "' failed. No Error message was returned by API."⟩

/-- The exception class of a failed call, `none` on success. -/
def errClass {α : Type} : Except PyExc α → Option String
  | Except.error e => some e.cls
  | Except.ok _ => none

/-- `math.ceil(seeding / 50)` (gazellesort.py:150) with the division taken
exactly (Python integers are arbitrary precision; the quotient is modelled
as a rational rather than a double). -/
def seedingPages (seeding : Nat) : Int := ⌈(seeding : ℚ) / 50⌉

/-- The torrents-listing fetches `GazelleSort.getSnatched` issues
(gazellesort.py:159-160): one `readPage(page)` per `page in range(pages)`,
each fetching `?type=seeding&page=<page+1>` (gazellesort.py:155).  The list
holds the `page` query values in fetch order. -/
def getSnatchedFetches (seeding : Nat) : List Nat :=
  (List.range (seedingPages seeding).toNat).map (fun page => page + 1)

/-- Matching a literal character sequence at the head of the input,
returning the rest: the backbone of the regex scanner below. -/
def stripLit : List Char → List Char → Option (List Char)
  | [], cs => some cs
  | _ :: _, [] => none
  | l :: ls, c :: cs => if c = l then stripLit ls cs else none

/-- The literal head of the scraped pattern (gazellesort.py:156). -/
def litTorrentsId : List Char := "torrents.php?id=".data

/-- The literal middle of the scraped pattern (gazellesort.py:156): the
markup HTML-encodes the ampersand. -/
def litAmpTorrentid : List Char := "&amp;torrentid=".data

/-- Python `int()` on a decimal digit string (the `map(lambda x: (int(x[0]),
int(x[1])), matches)` of gazellesort.py:157). -/
def digitsToNat (ds : List Char) : Nat :=
  ds.foldl (fun acc c => acc * 10 + (c.toNat - 48)) 0

/-- One attempt of the scraping regex
`torrents.php\?id=(?P<groupid>\d+)&amp;torrentid=(?P<torrentid>\d+)`
(gazellesort.py:156) at the current position: the literal head, a maximal
nonempty digit run, the literal middle, a maximal nonempty digit run.  On
success: the (groupid, torrentid) pair and the input after the match.
The dot in `torrents.php` is unescaped in the source regex and so matches
any character there; it is modelled as the literal dot, which agrees with
the regex on every body in which the pattern text occurs literally (as it
does in the markup the tracker serves, and in every body the theorems
below quantify over). -/
def matchSnatchAt (cs : List Char) : Option ((Nat × Nat) × List Char) :=
  match stripLit litTorrentsId cs with
  | none => none
  | some r1 =>
    match r1.takeWhile Char.isDigit with
    | [] => none
    | ds1 =>
      match stripLit litAmpTorrentid (r1.dropWhile Char.isDigit) with
      | none => none
      | some r3 =>
        match r3.takeWhile Char.isDigit with
        | [] => none
        | ds2 => some ((digitsToNat ds1, digitsToNat ds2), r3.dropWhile Char.isDigit)

/-- `re.findall` of the scraping pattern over a page body followed by the
integer conversion (gazellesort.py:156-157): left-to-right scan; at each
position try the pattern; on a match, emit the pair and resume after the
matched text (non-overlapping matches); otherwise advance one character. -/
def scanSnatches : List Char → List (Nat × Nat)
  | [] => []
  | c :: cs =>
    match h : matchSnatchAt (c :: cs) with
    | some (p, rem) => p :: scanSnatches rem
    | none => scanSnatches cs
termination_by l => l.length
decreasing_by
  · have hstrip : ∀ (l cs r : List Char), stripLit l cs = some r → cs.length = l.length + r.length := by
      intro l
      induction l with
      | nil =>
        intro cs r hh
        simp [stripLit] at hh
        subst hh
        simp
      | cons a as ih =>
        intro cs r hh
        cases cs with
        | nil => simp [stripLit] at hh
        | cons c0 cs0 =>
          by_cases hc : c0 = a
          · simp only [stripLit, if_pos hc] at hh
            have := ih cs0 r hh
            simp [List.length_cons, this]
            omega
          · simp [stripLit, hc] at hh
    have key : ∀ (l : List Char) (q : Nat × Nat) (r : List Char),
        matchSnatchAt l = some (q, r) → r.length < l.length := by
      intro l q r hm
      cases hs1 : stripLit litTorrentsId l with
      | none => simp only [matchSnatchAt, hs1] at hm; exact Option.noConfusion hm
      | some r1 =>
        simp only [matchSnatchAt, hs1] at hm
        have h1 := hstrip _ _ _ hs1
        cases ht1 : r1.takeWhile Char.isDigit with
        | nil => simp only [ht1] at hm; exact Option.noConfusion hm
        | cons d1 ds1 =>
          simp only [ht1] at hm
          have h2 : (r1.dropWhile Char.isDigit).length ≤ r1.length :=
            (List.dropWhile_sublist _).length_le
          cases hs2 : stripLit litAmpTorrentid (r1.dropWhile Char.isDigit) with
          | none => simp only [hs2] at hm; exact Option.noConfusion hm
          | some r3 =>
            simp only [hs2] at hm
            have h3 := hstrip _ _ _ hs2
            cases ht2 : r3.takeWhile Char.isDigit with
            | nil => simp only [ht2] at hm; exact Option.noConfusion hm
            | cons d2 ds2 =>
              simp only [ht2] at hm
              simp at hm
              have h4 : (r3.dropWhile Char.isDigit).length ≤ r3.length :=
                (List.dropWhile_sublist _).length_le
              have hr : r = r3.dropWhile Char.isDigit := hm.2.symm
              subst hr
              simp [litTorrentsId, litAmpTorrentid] at h1 h3
              omega
    exact key _ _ _ h
  · simp_arith

/-- What one `readPage` call appends to `self.snatches`
(gazellesort.py:153-157), as (releaseGroupId, torrentId) pairs in match
order, duplicates kept. -/
def readPageSnatches (body : String) : List (Nat × Nat) := scanSnatches body.data

/-- Python `list.index(a)` (gazellesort.py:202): the position of the first
occurrence of `a`.  On a list not containing `a` Python raises
`ValueError`; the program only calls it on elements of the list itself, so
the out-of-list value returned here is never reached by any theorem. -/
def pyListIndex {α : Type} [DecidableEq α] : List α → α → Nat
  | [], _ => 0
  | b :: r, a => if b = a then 0 else pyListIndex r a + 1

/-- The fraction-complete values `GazelleSort.scanTorrents` feeds to
`printProgressBar`, in emission order (gazellesort.py:201-202): for each
element of `self.snatches`, `self.snatches.index(id) / len(self.snatches)`
— the first-occurrence index, not the loop position. -/
def progressFractions (snatches : List (Nat × Nat)) : List ℚ :=
  snatches.map (fun id => (pyListIndex snatches id : ℚ) / (snatches.length : ℚ))

/-- The `type` objects the configuration check compares against
(gazellesort.py:86): `str` and `dict`. -/
inductive PyTy where
  | tstr
  | tdict
deriving DecidableEq

/-- `isinstance(v, ty)` for the two types `checkConfig` uses. -/
def tyMatches : PyVal → PyTy → Bool
  | PyVal.str _, PyTy.tstr => true
  | PyVal.dict _, PyTy.tdict => true
  | _, _ => false

/-- `key in self.config` (gazellesort.py:87). -/
def pyHasKey (cfg : List (String × PyVal)) (k : String) : Bool :=
  cfg.any (fun p => p.1 == k)

/-- The `necessaryparams` table of `GazelleSort.checkConfig`
(gazellesort.py:86). -/
def necessaryparams : List (String × PyTy) :=
  [("url", PyTy.tstr), ("username", PyTy.tstr), ("password", PyTy.tstr),
   ("torrentdir", PyTy.tstr), ("destdirs", PyTy.tdict), ("pattern", PyTy.tdict)]

/-- `GazelleSort.checkConfig` (gazellesort.py:83-102): when every required
key is present, returns `False` if any value has the wrong type and `True`
otherwise, checking only the six top-level keys.  When a required key is
missing, the error-reporting loop at gazellesort.py:90-91 evaluates
`"  " + missing` with `missing` a (name, type) tuple — `item not in
self.config` is true of every tuple, keys being strings — so the function
raises the builtin `TypeError` instead of returning. -/
def checkConfig (cfg : List (String × PyVal)) : Except PyExc Bool :=
  if necessaryparams.all (fun x => pyHasKey cfg x.1) then
    if necessaryparams.any
        (fun x => !(match dictGet cfg x.1 with
                    | some v => tyMatches v x.2
                    | none => false)) then
      Except.ok false
    else
      Except.ok true
  else
    Except.error ⟨"TypeError", "can only concatenate str (not \"tuple\") to str"⟩

/-- A filesystem as placement observes it: the set of directories and the
hard-link table mapping each regular-file path to its inode (paths are
component lists; files sharing an inode are hard links of one another).
This state belongs to the external `cp` collaborator, not to the Python
source. -/
structure FileSys where
  dirs : List (List String)
  files : List (List String × Nat)
deriving DecidableEq

/-- The external command `cp -Rl SRC DEST` that `processFiles` shells out
to (gazellesort.py:250), modelled from the POSIX description of `cp -R`
with hard-linking: when DEST names an existing directory the source is
copied to DEST/basename(SRC), otherwise to DEST; source directories are
recreated below the target and each regular file becomes a hard link (same
inode); a target file that already exists makes that copy fail — the
program discards `cp`'s exit status and silences stderr
(`stderr=subprocess.DEVNULL`), so the existing file simply survives and
nothing is removed. -/
def cpRl (fs : FileSys) (src dest : List String) : FileSys :=
  let t := if fs.dirs.contains dest then dest ++ [src.getLastD ""] else dest
  let relDirs := fs.dirs.filterMap
    (fun d => if src.isPrefixOf d then some (d.drop src.length) else none)
  let relFiles := fs.files.filterMap
    (fun e => if src.isPrefixOf e.1 then some (e.1.drop src.length, e.2) else none)
  let newDirs := (relDirs.map (fun d => t ++ d)).filter (fun d => !(fs.dirs.contains d))
  let newFiles := (relFiles.map (fun e => (t ++ e.1, e.2))).filter
    (fun e => !(fs.files.any (fun f => f.1 == e.1)))
  ⟨fs.dirs ++ newDirs, fs.files ++ newFiles⟩


/-- A fully populated release metadata value: every field the pipeline
reads is present.  `names` become the credited artists in order. -/
def mkTorrentData (names : List String) (album : String) (year : Int)
    (fmt : String) (enc fp : Option String) : TorrentData :=
  ⟨some ⟨some album, some year, some ⟨some (names.map (fun n => ⟨some n⟩))⟩⟩,
   some ⟨some fmt, enc, fp⟩⟩

/-- A release metadata value whose group lacks the `year` key but has every
other field the pipeline reads. -/
def mkTorrentDataNoYear (names : List String) (album : String)
    (fmt : String) (enc fp : Option String) : TorrentData :=
  ⟨some ⟨some album, none, some ⟨some (names.map (fun n => ⟨some n⟩))⟩⟩,
   some ⟨some fmt, enc, fp⟩⟩

/-- The default configuration shipped by the program (gazellesort.py:52-70)
restricted to the fields the pipeline reads, with a concrete torrent
directory and a `flac` destination. -/
def cfgDemo : Config :=
  ⟨"td", [("flac", "/dest/flac"), ("flac24bit", "/dest/flac24")],
   ⟨"%(artist)s - %(album)s (%(year)s) [%(format)s]", "Various Artists", " & ", 2⟩⟩

/-- A complete FLAC release: renders and places. -/
def tdGood : TorrentData :=
  mkTorrentData ["Artist A"] "Album X" 2020 "FLAC" (some "Lossless") (some "Album X")

/-- The same release with the group `year` missing. -/
def tdNoYear : TorrentData :=
  mkTorrentDataNoYear ["Artist A"] "Album X" "FLAC" (some "Lossless") (some "Album X")

/-- A configuration with a constant naming pattern, for exercising the
path computation in isolation. -/
def cfgSlash : Config := ⟨"td", [("flac", "/d")], ⟨"N", "VA", " & ", 2⟩⟩

/-- A release whose `filePath` contains a slash. -/
def tdSlash : TorrentData :=
  mkTorrentData [] "A" 2020 "FLAC" (some "Lossless") (some "a/b")

/-- One occurrence of the scraped pattern in a page body: the literal head,
the groupid digits, the encoded-ampersand literal, the torrentid digits. -/
def snatchOcc (ds1 ds2 : List Char) : List Char :=
  litTorrentsId ++ ds1 ++ litAmpTorrentid ++ ds2

/-- A page body tail built from occurrences of the scraped pattern, each
followed by its stretch of surrounding markup: used to quantify over page
bodies with a known list of occurrences. -/
def snatchTail : List ((List Char × List Char) × List Char) → List Char
  | [] => []
  | it :: rest => snatchOcc it.1.1 it.1.2 ++ it.2 ++ snatchTail rest

/-- Markup that can neither start an occurrence of the scraped pattern nor
extend a digit run: no letter t and no decimal digit. -/
def inertMarkup (l : List Char) : Prop :=
  ∀ c ∈ l, c ≠ 't' ∧ c.isDigit = false

/-- Digit-run side conditions for one occurrence and its trailing markup:
both digit runs are nonempty and all digits, and the trailing markup is
inert. -/
def goodItem (it : (List Char × List Char) × List Char) : Prop :=
  it.1.1 ≠ [] ∧ (∀ c ∈ it.1.1, c.isDigit = true) ∧
  it.1.2 ≠ [] ∧ (∀ c ∈ it.1.2, c.isDigit = true) ∧ inertMarkup it.2

/-- A filesystem with one placed-release source directory `td/Album`
holding one file, and an existing destination root `dest`. -/
def fs0 : FileSys :=
  ⟨[["td"], ["td", "Album"], ["dest"]], [(["td", "Album", "f.flac"], 7)]⟩


/-! ## Theorems -/

/-- C1: classification follows the decision table of §4.5 exactly — empty
format skips, FLAC with 24bit Lossless encoding is flac24bit, FLAC with any
other encoding is flac, MP3 skips (no bitrate sub-classification), any
other format skips; and a resolved category that is not a key of the
configured destination-directory mapping produces no placement. -/
theorem C1_classification_table :
    (∀ e, classify "" e = none) ∧
    (classify "FLAC" "24bit Lossless" = some "flac24bit") ∧
    (∀ e, e ≠ "24bit Lossless" → classify "FLAC" e = some "flac") ∧
    (∀ e, classify "MP3" e = none) ∧
    (∀ f e, f ≠ "" → f ≠ "FLAC" → f ≠ "MP3" → classify f e = none) ∧
    (∀ (cfg : Config) (g : Option GroupInfo) (fp : Option String) (f e : String),
      classify f e = none →
      processOne cfg ⟨g, some ⟨some f, some e, fp⟩⟩ = Except.ok none) ∧
    (∀ (cfg : Config) (g : Option GroupInfo) (fp : Option String) (f e cat : String),
      classify f e = some cat → dictGet cfg.destdirs cat = none →
      processOne cfg ⟨g, some ⟨some f, some e, fp⟩⟩ = Except.ok none) := by
  refine ⟨?_, ?_, ?_, ?_, ?_, ?_, ?_⟩
  · intro e; simp [classify]
  · simp [classify]
  · intro e he; simp [classify, he]
  · intro e; simp [classify]
  · intro f e h1 h2 h3; simp [classify, h1, h2]
  · intro cfg g fp f e hc
    by_cases hf : f = ""
    · simp [processOne, req, hf, bind, Except.bind]
    · by_cases hF : f = "FLAC"
      · simp [classify, hf, hF] at hc
      · simp [processOne, req, hf, hF, bind, Except.bind]
  · intro cfg g fp f e cat hc hd
    by_cases hf : f = ""
    · simp [classify, hf] at hc
    · by_cases hF : f = "FLAC"
      · subst hF
        simp [classify, hf] at hc
        simp [processOne, req, hf, hc, hd, bind, Except.bind]
      · simp [classify, hf, hF] at hc

/-- C1 witness: the decision table and the destdirs filter evaluated at
concrete inputs. -/
theorem C1_classification_table_witness :
    classify "FLAC" "Lossless" = some "flac" ∧
    classify "MP3" "320" = none ∧
    processOne ⟨"td", [], ⟨"N", "VA", " ", 2⟩⟩ ⟨none, some ⟨some "MP3", some "320", none⟩⟩
      = Except.ok none ∧
    processOne ⟨"td", [], ⟨"N", "VA", " ", 2⟩⟩ ⟨none, some ⟨some "FLAC", some "Lossless", none⟩⟩
      = Except.ok none :=
  ⟨C1_classification_table.2.2.1 "Lossless" (by decide),
   C1_classification_table.2.2.2.1 "320",
   C1_classification_table.2.2.2.2.2.1 _ none none "MP3" "320" (by simp [classify]),
   C1_classification_table.2.2.2.2.2.2 _ none none "FLAC" "Lossless" "flac"
     (by simp [classify]) (by simp [dictGet])⟩


/-- C4: the snatch enumeration computes `ceil(N / 50)` pages from the
seeding count N and issues exactly that many torrents-listing page
fetches; in particular zero fetches when N = 0. -/
theorem C4_page_fetch_count (n : Nat) :
    ((getSnatchedFetches n).length : ℤ) = ⌈(n : ℚ) / 50⌉ ∧
    (getSnatchedFetches n).length = (n + 49) / 50 ∧
    getSnatchedFetches 0 = [] := by
  set d : ℕ := (n + 49) / 50 with hd
  have h1 : 50 * d < n + 50 := by omega
  have h2 : n ≤ 50 * d := by omega
  have h1q : (50 : ℚ) * (d : ℚ) < (n : ℚ) + 50 := by exact_mod_cast h1
  have h2q : (n : ℚ) ≤ 50 * (d : ℚ) := by exact_mod_cast h2
  have hceil : ⌈(n : ℚ) / 50⌉ = (d : ℤ) := by
    rw [Int.ceil_eq_iff]
    constructor
    · rw [lt_div_iff₀ (by norm_num : (0 : ℚ) < 50)]
      push_cast
      linarith
    · rw [div_le_iff₀ (by norm_num : (0 : ℚ) < 50)]
      push_cast
      linarith
  have hlen : (getSnatchedFetches n).length = (seedingPages n).toNat := by
    simp [getSnatchedFetches]
  refine ⟨?_, ?_, ?_⟩
  · rw [hlen, seedingPages, hceil]
    simp
  · rw [hlen, seedingPages, hceil]
    simp
  · simp [getSnatchedFetches, seedingPages]


/-- C9: the fraction-complete sequence is NOT monotone when the snatch
list holds a duplicate record — `self.snatches.index(id)` returns the
first occurrence of the value, so the third emission for
`[(1,10), (2,20), (1,10)]` reports 0/3 after 1/3 was reported.  The spec
(and plainly the intent of a progress bar) requires the fractions never to
decrease; the code is a slip. -/
theorem C9_progress_not_monotone :
    progressFractions [(1, 10), (2, 20), (1, 10)] = [0, 1/3, 0] ∧
    ¬ List.Sorted (· ≤ ·) (progressFractions [(1, 10), (2, 20), (1, 10)]) := by
  have h : progressFractions [(1, 10), (2, 20), (1, 10)] = [0, 1/3, 0] := by
    simp [progressFractions, pyListIndex]
  refine ⟨h, ?_⟩
  rw [h]
  simp [List.sorted_cons]


/-- A key is found by Python dictionary lookup exactly when some pair of
the association list carries it. -/
theorem dictGet_isSome_iff {α : Type} (m : List (String × α)) (k : String) :
    (∃ v, dictGet m k = some v) ↔ m.any (fun p => p.1 == k) = true := by
  constructor
  · rintro ⟨v, hv⟩
    simp only [dictGet] at hv
    cases hfind : List.find? (fun p => p.1 == k) m.reverse with
    | none => rw [hfind] at hv; simp at hv
    | some x =>
      have hex : ∃ y ∈ m.reverse, (y.1 == k) = true :=
        List.find?_isSome.mp (by simp [hfind])
      obtain ⟨y, hy, hpy⟩ := hex
      rw [← List.any_reverse]
      simp only [List.any_eq_true]
      exact ⟨y, hy, hpy⟩
  · intro h
    rw [← List.any_reverse] at h
    simp only [List.any_eq_true] at h
    have hs : (List.find? (fun p => p.1 == k) m.reverse).isSome := List.find?_isSome.mpr h
    obtain ⟨x, hfind⟩ := Option.isSome_iff_exists.mp hs
    exact ⟨x.2, by simp [dictGet, hfind]⟩

/-- C10: `checkConfig` validates exactly the presence and type of the six
top-level keys — it returns `True` if and only if `url`, `username`,
`password`, `torrentdir` are present as strings and `destdirs`, `pattern`
as dictionaries — so a configuration whose `pattern` or `destdirs`
sub-object is an empty dictionary (no `pattern.string`, no destination
paths) still passes, as the concrete instance shows. -/
theorem C10_checkConfig_top_level_only (cfg : List (String × PyVal)) :
    (checkConfig cfg = Except.ok true ↔
      ∀ p ∈ necessaryparams, ∃ v, dictGet cfg p.1 = some v ∧ tyMatches v p.2 = true) ∧
    checkConfig
      [("url", PyVal.str "u"), ("username", PyVal.str "n"), ("password", PyVal.str "p"),
       ("torrentdir", PyVal.str "t"), ("destdirs", PyVal.dict []), ("pattern", PyVal.dict [])]
      = Except.ok true := by
  constructor
  · by_cases hall : necessaryparams.all (fun x => pyHasKey cfg x.1) = true
    · by_cases hany : necessaryparams.any
          (fun x => !(match dictGet cfg x.1 with
                      | some v => tyMatches v x.2
                      | none => false)) = true
      · rw [checkConfig, if_pos hall, if_pos hany]
        simp only [List.any_eq_true] at hany
        obtain ⟨p, hp, hbad⟩ := hany
        constructor
        · intro hfalse
          exact absurd hfalse (by simp)
        · intro hforall
          obtain ⟨v, hv, hty⟩ := hforall p hp
          rw [hv] at hbad
          simp [hty] at hbad
      · rw [checkConfig, if_pos hall, if_neg hany]
        simp only [List.any_eq_true, not_exists] at hany
        constructor
        · intro _ p hp
          have hkey : pyHasKey cfg p.1 = true := by
            simp only [List.all_eq_true] at hall
            exact hall p hp
          have hsome : ∃ v, dictGet cfg p.1 = some v :=
            (dictGet_isSome_iff cfg p.1).mpr (by simpa [pyHasKey] using hkey)
          obtain ⟨v, hv⟩ := hsome
          refine ⟨v, hv, ?_⟩
          have := hany p
          simp [hp, hv] at this
          exact this
        · intro _
          rfl
    · rw [checkConfig, if_neg hall]
      simp only [List.all_eq_true, not_forall] at hall
      obtain ⟨p, hp, hkey⟩ := hall
      constructor
      · intro hfalse
        exact absurd hfalse (by simp)
      · intro hforall
        obtain ⟨v, hv, _⟩ := hforall p hp
        have : pyHasKey cfg p.1 = true := by
          simpa [pyHasKey] using (dictGet_isSome_iff cfg p.1).mp ⟨v, hv⟩
        exact (hkey this).elim
  · rfl


/-- C3 counterexample: the protocol-level failure (body not valid JSON)
and the request-level failure (status not success with a server error
text) raise the SAME exception class, `GazelleSort.RequestException` —
the source defines no separate `ApiProtocolError` kind, so the two
failures are not distinguishable error kinds as the claim states. -/
theorem C3_counterexample_single_error_kind :
    errClass (ajaxrequest ⟨"https://x/ajax.php?action=index", 500, none⟩)
      = some "GazelleSort.RequestException" ∧
    errClass (ajaxrequest ⟨"https://x/ajax.php?action=index", 200,
        some [("status", PyVal.str "failure"), ("error", PyVal.str "bad auth")]⟩)
      = some "GazelleSort.RequestException" ∧
    errClass (ajaxrequest ⟨"https://x/ajax.php?action=index", 500, none⟩)
      = errClass (ajaxrequest ⟨"https://x/ajax.php?action=index", 200,
          some [("status", PyVal.str "failure"), ("error", PyVal.str "bad auth")]⟩) := by
  refine ⟨rfl, ?_, ?_⟩ <;> rfl

/-- C3 amended: the four response cases behave as the claim describes —
success returns the full decoded object; a recognized failure carries the
server error text with the auth key redacted from the echoed URL; a
failure without an error field reports that no message was returned; a
non-JSON body reports the raw HTTP status code — but all three failures
raise the one class `GazelleSort.RequestException`, distinguishable only
by message text, not as separate `ApiRequestError`/`ApiProtocolError`
kinds.  The last conjunct shows the redaction concretely. -/
theorem C3_ajaxrequest_cases (url : String) (code : Nat)
    (fields : List (String × PyVal)) (st : PyVal) (emsg : String) :
    (ajaxrequest ⟨url, code, none⟩ =
      Except.error ⟨"GazelleSort.RequestException",
        "Request didn't return any JSON. HTTP status code: " ++ toString code⟩) ∧
    (dictGet fields "status" = some (PyVal.str "success") →
      ajaxrequest ⟨url, code, some fields⟩ = Except.ok (PyVal.dict fields)) ∧
    (dictGet fields "status" = some st → (∀ s, st = PyVal.str s → s ≠ "success") →
      dictGet fields "error" = some (PyVal.str emsg) →
      ajaxrequest ⟨url, code, some fields⟩ =
        Except.error ⟨"GazelleSort.RequestException",
          "Request '" ++ String.mk (redactChars url.data) ++ "' failed. Error: " ++ emsg⟩) ∧
    (dictGet fields "status" = some st → (∀ s, st = PyVal.str s → s ≠ "success") →
      dictGet fields "error" = none →
      ajaxrequest ⟨url, code, some fields⟩ =
        Except.error ⟨"GazelleSort.RequestException",
          "Request '" ++ url ++ "' failed. No Error message was returned by API."⟩) ∧
    String.mk (redactChars "ajax.php?action=user&auth=0123abcDEF&id=1".data)
      = "ajax.php?action=user&auth=REDACTED&id=1" := by
  have hnotsuccess : ∀ (st : PyVal), (∀ s, st = PyVal.str s → s ≠ "success") →
      (match st with | PyVal.str s => decide (s = "success") | _ => false) = false := by
    intro st hst
    cases st with
    | str s => simp [hst s rfl]
    | int n => rfl
    | dict d => rfl
  refine ⟨?_, ?_, ?_, ?_, ?_⟩
  · rfl
  · intro hst
    simp [ajaxrequest, hst]
  · intro hst hne herr
    simp [ajaxrequest, hst, herr, hnotsuccess st hne, pyStr]
  · intro hst hne herr
    simp [ajaxrequest, hst, herr, hnotsuccess st hne]
  · simp [redactChars, hexDigit]

/-- C3 witness: the recognized-failure case at a concrete response, with
the auth key in the echoed URL redacted. -/
theorem C3_ajaxrequest_cases_witness :
    ajaxrequest ⟨"ajax.php?action=user&auth=0123abcDEF&id=1", 200,
        some [("status", PyVal.str "failure"), ("error", PyVal.str "bad auth")]⟩ =
      Except.error ⟨"GazelleSort.RequestException",
        "Request '" ++ String.mk (redactChars "ajax.php?action=user&auth=0123abcDEF&id=1".data)
          ++ "' failed. Error: " ++ "bad auth"⟩ :=
  (C3_ajaxrequest_cases "ajax.php?action=user&auth=0123abcDEF&id=1" 200
      [("status", PyVal.str "failure"), ("error", PyVal.str "bad auth")]
      (PyVal.str "failure") "bad auth").2.2.1
    (by rfl)
    (by intro s hs; cases hs; decide)
    (by rfl)


/-- The Python string order is total. -/
theorem charListLe_total : ∀ as bs : List Char, charListLe as bs = true ∨ charListLe bs as = true := by
  intro as
  induction as with
  | nil => intro bs; left; rfl
  | cons a as ih =>
    intro bs
    cases bs with
    | nil => right; rfl
    | cons b bs =>
      by_cases h1 : a.toNat < b.toNat
      · left; simp [charListLe, h1]
      · by_cases h2 : b.toNat < a.toNat
        · right; simp [charListLe, h2]
        · have := ih bs
          simp [charListLe, h1, h2]
          exact this

/-- The Python string order is transitive. -/
theorem charListLe_trans : ∀ as bs cs : List Char,
    charListLe as bs = true → charListLe bs cs = true → charListLe as cs = true := by
  intro as
  induction as with
  | nil => intro bs cs _ _; rfl
  | cons a as ih =>
    intro bs cs hab hbc
    cases bs with
    | nil => simp [charListLe] at hab
    | cons b bs =>
      cases cs with
      | nil => simp [charListLe] at hbc
      | cons c cs =>
        by_cases h1 : a.toNat < b.toNat
        · by_cases h2 : b.toNat < c.toNat
          · simp [charListLe, show a.toNat < c.toNat by omega]
          · by_cases h3 : c.toNat < b.toNat
            · simp [charListLe, h2, h3] at hbc
            · have hac : a.toNat < c.toNat := by omega
              simp [charListLe, hac]
        · by_cases h1' : b.toNat < a.toNat
          · simp [charListLe, h1, h1'] at hab
          · by_cases h2 : b.toNat < c.toNat
            · have hac : a.toNat < c.toNat := by omega
              simp [charListLe, hac]
            · by_cases h3 : c.toNat < b.toNat
              · simp [charListLe, h2, h3] at hbc
              · have h4 : ¬ a.toNat < c.toNat := by omega
                have h5 : ¬ c.toNat < a.toNat := by omega
                simp [charListLe, h1, h1'] at hab
                simp [charListLe, h2, h3] at hbc
                simp [charListLe, h4, h5]
                exact ih bs cs hab hbc

/-- Totality, on strings. -/
theorem strLe_total (a b : String) : strLe a b = true ∨ strLe b a = true :=
  charListLe_total a.data b.data

/-- Transitivity, on strings. -/
theorem strLe_trans {a b c : String} (hab : strLe a b = true) (hbc : strLe b c = true) :
    strLe a c = true :=
  charListLe_trans a.data b.data c.data hab hbc

/-- Inserting into the sorted prefix permutes a cons. -/
theorem insertStr_perm (a : String) (l : List String) : List.Perm (insertStr a l) (a :: l) := by
  induction l with
  | nil => exact List.Perm.refl _
  | cons b bs ih =>
    by_cases h : strLe a b
    · simp [insertStr, h]
    · simp only [insertStr, h, Bool.false_eq_true, if_false]
      exact (ih.cons b).trans (List.Perm.swap a b bs)

/-- The model of Python `sorted` permutes its input. -/
theorem sortStrings_perm (l : List String) : List.Perm (sortStrings l) l := by
  induction l with
  | nil => exact List.Perm.refl _
  | cons a as ih => exact (insertStr_perm a (sortStrings as)).trans (ih.cons a)

/-- Insertion preserves sortedness. -/
theorem insertStr_pairwise (a : String) (l : List String)
    (hl : l.Pairwise (fun x y => strLe x y = true)) :
    (insertStr a l).Pairwise (fun x y => strLe x y = true) := by
  induction l with
  | nil => simp [insertStr]
  | cons b bs ih =>
    rw [List.pairwise_cons] at hl
    obtain ⟨hb, hbs⟩ := hl
    by_cases h : strLe a b
    · simp only [insertStr, h, if_true]
      rw [List.pairwise_cons]
      constructor
      · intro y hy
        rcases List.mem_cons.mp hy with hyb | hybs
        · subst hyb; exact h
        · exact strLe_trans h (hb y hybs)
      · rw [List.pairwise_cons]
        exact ⟨hb, hbs⟩
    · simp only [insertStr, h, Bool.false_eq_true, if_false]
      rw [List.pairwise_cons]
      constructor
      · intro y hy
        have hy' : y = a ∨ y ∈ bs := by
          have := (insertStr_perm a bs).mem_iff.mp hy
          simpa using this
        rcases hy' with hya | hybs
        · rcases strLe_total a b with h' | h'
          · exact absurd h' h
          · rw [hya]; exact h'
        · exact hb y hybs
      · exact ih hbs

/-- The model of Python `sorted` sorts. -/
theorem sortStrings_pairwise (l : List String) :
    (sortStrings l).Pairwise (fun x y => strLe x y = true) := by
  induction l with
  | nil => simp [sortStrings]
  | cons a as ih => exact insertStr_pairwise a (sortStrings as) ih

/-- Extracting the artist names succeeds when every artist entry has a
`name` key. -/
theorem artistNames_map (names : List String) :
    artistNames (names.map (fun n => ⟨some n⟩)) = Except.ok names := by
  induction names with
  | nil => rfl
  | cons n ns ih => simp [artistNames, req, bind, Except.bind, ih]

/-- C2: name rendering substitutes {artist, album = group name, year =
group year, format} into the pattern template; the artist field is the
configured various-artists label when the artist count strictly exceeds
`listindividualartists`, and otherwise the artist names sorted in
code-point (ASCII) lexical order and joined by `artistjoiner`; the sorted
list is sorted and a permutation of the names; and rendering is a pure
function of (metadata, pattern), hence deterministic. -/
theorem C2_renderName_artist_field (cfg : Config) (names : List String) (album : String)
    (year : Int) (fmt : String) (enc fp : Option String) :
    renderName cfg (mkTorrentData names album year fmt enc fp) =
      pyFormat cfg.pattern.string
        [("artist",
          if (names.length : Int) > cfg.pattern.listindividualartists then
            cfg.pattern.variousartists
          else
            String.intercalate cfg.pattern.artistjoiner (sortStrings names)),
         ("album", album), ("year", toString year), ("format", fmt)] ∧
    (sortStrings names).Pairwise (fun x y => strLe x y = true) ∧
    List.Perm (sortStrings names) names := by
  refine ⟨?_, sortStrings_pairwise names, sortStrings_perm names⟩
  by_cases h : (names.length : Int) > cfg.pattern.listindividualartists
  · simp [renderName, mkTorrentData, req, bind, Except.bind, h]
  · simp [renderName, mkTorrentData, req, bind, Except.bind, h, artistNames_map]


set_option maxHeartbeats 1600000 in
/-- C6 counterexample: a release whose metadata lacks the group `year`
raises `KeyError` out of `renderName`; `processFiles` has no per-release
exception handling, so the whole run aborts — a complete release queued
AFTER the failing one is never processed (first conjunct), although alone
it would have been placed (second conjunct). -/
theorem C6_counterexample_run_aborts :
    processFiles cfgDemo [tdNoYear, tdGood] = Except.error (keyError "year") ∧
    processFiles cfgDemo [tdGood] =
      Except.ok [("td/Album X", "/dest/flac/Artist A - Album X (2020) [FLAC]")] := by
  have hy : toString (2020 : Int) = "2020" := rfl
  constructor
  · simp [processFiles, processOne, cfgDemo, tdNoYear, mkTorrentDataNoYear,
          renderName, req, bind, Except.bind, dictGet, artistNames, joinPath,
          escSlashChars, sortStrings, insertStr, strLe, charListLe, String.intercalate,
          String.intercalate.go]
  · simp [processFiles, processOne, cfgDemo, tdGood, mkTorrentData,
          renderName, req, bind, Except.bind, dictGet, artistNames, joinPath,
          escSlashChars, htmlUnescape, htmlUnescapeChars, sortStrings, insertStr, strLe,
          charListLe, String.intercalate, String.intercalate.go,
          pyFormat, pyFormatChars, pyFormatKey, Except.map, hy]

/-- Artist-name extraction fails with `KeyError "name"` at the first
artist entry lacking a `name` key. -/
theorem artistNames_missing (pre : List String) (post : List ArtistInfo) :
    artistNames (pre.map (fun n => ⟨some n⟩) ++ ⟨none⟩ :: post) =
      Except.error (keyError "name") := by
  induction pre with
  | nil => simp [artistNames, req, bind, Except.bind]
  | cons n ns ih => simp [artistNames, req, bind, Except.bind, ih]

/-- C6 amended: when metadata lacks a field the renderer reads, rendering
fails with the builtin `KeyError` naming the first missing field in access
order — `group`, `musicInfo`, `artists`, an artist `name` (read only when
the artist count does not exceed the threshold; with more artists the
names are never read and rendering uses the various-artists label, sixth
conjunct), `torrent`, `format`, the group `name`, the group `year` — never
substituting a default; but the failure is NOT confined to that release:
the source has no per-release exception handling, so the error propagates
out of `processFiles` and aborts processing of all remaining releases
(first conjunct). -/
theorem C6_missing_field_aborts_run :
    (∀ (cfg : Config) (td : TorrentData) (rest : List TorrentData) (e : PyExc),
      processOne cfg td = Except.error e →
      processFiles cfg (td :: rest) = Except.error e) ∧
    (∀ (cfg : Config) (t : Option TorrentInfo),
      renderName cfg ⟨none, t⟩ = Except.error (keyError "group")) ∧
    (∀ (cfg : Config) (album : Option String) (year : Option Int) (t : Option TorrentInfo),
      renderName cfg ⟨some ⟨album, year, none⟩, t⟩ = Except.error (keyError "musicInfo")) ∧
    (∀ (cfg : Config) (album : Option String) (year : Option Int) (t : Option TorrentInfo),
      renderName cfg ⟨some ⟨album, year, some ⟨none⟩⟩, t⟩ =
        Except.error (keyError "artists")) ∧
    (∀ (cfg : Config) (pre : List String) (post : List ArtistInfo)
        (album : Option String) (year : Option Int) (t : Option TorrentInfo),
      ¬ (((pre.map (fun n => (⟨some n⟩ : ArtistInfo)) ++ ⟨none⟩ :: post).length : Int) >
          cfg.pattern.listindividualartists) →
      renderName cfg
          ⟨some ⟨album, year, some ⟨some (pre.map (fun n => ⟨some n⟩) ++ ⟨none⟩ :: post)⟩⟩, t⟩ =
        Except.error (keyError "name")) ∧
    (∀ (cfg : Config) (artists : List ArtistInfo) (album : String) (year : Int)
        (fmt : String) (enc fp : Option String),
      (artists.length : Int) > cfg.pattern.listindividualartists →
      renderName cfg
          ⟨some ⟨some album, some year, some ⟨some artists⟩⟩, some ⟨some fmt, enc, fp⟩⟩ =
        pyFormat cfg.pattern.string
          [("artist", cfg.pattern.variousartists), ("album", album),
           ("year", toString year), ("format", fmt)]) ∧
    (∀ (cfg : Config) (names : List String) (album : Option String) (year : Option Int),
      renderName cfg
          ⟨some ⟨album, year, some ⟨some (names.map (fun n => ⟨some n⟩))⟩⟩, none⟩ =
        Except.error (keyError "torrent")) ∧
    (∀ (cfg : Config) (names : List String) (album : Option String) (year : Option Int)
        (enc fp : Option String),
      renderName cfg
          ⟨some ⟨album, year, some ⟨some (names.map (fun n => ⟨some n⟩))⟩⟩,
           some ⟨none, enc, fp⟩⟩ =
        Except.error (keyError "format")) ∧
    (∀ (cfg : Config) (names : List String) (year : Option Int) (fmt : String)
        (enc fp : Option String),
      renderName cfg
          ⟨some ⟨none, year, some ⟨some (names.map (fun n => ⟨some n⟩))⟩⟩,
           some ⟨some fmt, enc, fp⟩⟩ =
        Except.error (keyError "name")) ∧
    (∀ (cfg : Config) (names : List String) (album fmt : String) (enc fp : Option String),
      renderName cfg (mkTorrentDataNoYear names album fmt enc fp) =
        Except.error (keyError "year")) := by
  refine ⟨?_, ?_, ?_, ?_, ?_, ?_, ?_, ?_, ?_, ?_⟩
  · intro cfg td rest e h
    simp [processFiles, h, bind, Except.bind]
  · intro cfg t
    simp [renderName, req, bind, Except.bind]
  · intro cfg album year t
    simp [renderName, req, bind, Except.bind]
  · intro cfg album year t
    simp [renderName, req, bind, Except.bind]
  · intro cfg pre post album year t h
    simp only [renderName, req, bind, Except.bind]
    rw [if_neg h, artistNames_missing]
  · intro cfg artists album year fmt enc fp h
    simp [renderName, req, bind, Except.bind, h]
  · intro cfg names album year
    by_cases h : (names.length : Int) > cfg.pattern.listindividualartists
    · simp [renderName, req, bind, Except.bind, h]
    · simp [renderName, req, bind, Except.bind, h, artistNames_map]
  · intro cfg names album year enc fp
    by_cases h : (names.length : Int) > cfg.pattern.listindividualartists
    · simp [renderName, req, bind, Except.bind, h]
    · simp [renderName, req, bind, Except.bind, h, artistNames_map]
  · intro cfg names year fmt enc fp
    by_cases h : (names.length : Int) > cfg.pattern.listindividualartists
    · simp [renderName, req, bind, Except.bind, h]
    · simp [renderName, req, bind, Except.bind, h, artistNames_map]
  · intro cfg names album fmt enc fp
    by_cases h : (names.length : Int) > cfg.pattern.listindividualartists
    · simp [renderName, mkTorrentDataNoYear, req, bind, Except.bind, h]
    · simp [renderName, mkTorrentDataNoYear, req, bind, Except.bind, h, artistNames_map]

set_option maxHeartbeats 1600000 in
/-- C6 witness: the abort propagation applied to the concrete failing
release. -/
theorem C6_missing_field_aborts_run_witness :
    processFiles cfgDemo [tdNoYear] = Except.error (keyError "year") :=
  C6_missing_field_aborts_run.1 cfgDemo tdNoYear [] (keyError "year")
    (by simp [processOne, cfgDemo, tdNoYear, mkTorrentDataNoYear,
              renderName, req, bind, Except.bind, dictGet, artistNames, joinPath,
              escSlashChars, sortStrings, insertStr, strLe, charListLe,
              String.intercalate, String.intercalate.go])

set_option maxHeartbeats 1600000 in
/-- C7 counterexample: for `filePath = "a/b"` the placement source handed
to `cp` is `td/a\/b` — the source replaces every `/` in the file path by
`\/` (gazellesort.py:246) before joining — which differs from the claimed
torrent directory joined with the file path, HTML-unescaped and otherwise
untransformed, namely `td/a/b`. -/
theorem C7_counterexample_slash_transformed :
    processOne cfgSlash tdSlash = Except.ok (some ("td/a\\/b", "/d/N")) ∧
    ("td/a\\/b" : String) ≠ htmlUnescape (joinPath "td" "a/b") := by
  constructor
  · simp [processOne, cfgSlash, tdSlash, mkTorrentData, renderName, req, bind, Except.bind,
          artistNames, sortStrings, String.intercalate, pyFormat, pyFormatChars, pyFormatKey,
          dictGet, Except.map, joinPath, escSlashChars, htmlUnescape, htmlUnescapeChars]
  · decide

/-- C7 amended: for every placed release the `cp` source argument equals
the configured torrent directory joined with the release file path IN
WHICH EVERY SLASH IS FIRST REPLACED BY A BACKSLASH-SLASH PAIR, the joined
string then HTML-unescaped (the destination argument is likewise the
unescaped join of the destination directory and the rendered name). -/
theorem C7_source_path_formula (cfg : Config) (g : GroupInfo)
    (fmt enc fp cat destdir name : String) :
    classify fmt enc = some cat →
    dictGet cfg.destdirs cat = some destdir →
    renderName cfg ⟨some g, some ⟨some fmt, some enc, some fp⟩⟩ = Except.ok name →
    processOne cfg ⟨some g, some ⟨some fmt, some enc, some fp⟩⟩ =
      Except.ok (some
        (htmlUnescape (joinPath cfg.torrentdir (String.mk (escSlashChars fp.data))),
         htmlUnescape (joinPath destdir name))) := by
  intro hc hd hr
  by_cases hf : fmt = ""
  · simp [classify, hf] at hc
  · by_cases hF : fmt = "FLAC"
    · subst hF
      simp [classify, hf] at hc
      simp [processOne, req, bind, Except.bind, hf, hc, hd, hr]
    · simp [classify, hf, hF] at hc

set_option maxHeartbeats 1600000 in
/-- C7 witness: the path formula at the concrete slash-bearing release. -/
theorem C7_source_path_formula_witness :
    processOne cfgSlash
      ⟨some ⟨some "A", some 2020, some ⟨some []⟩⟩,
       some ⟨some "FLAC", some "Lossless", some "a/b"⟩⟩ =
      Except.ok (some
        (htmlUnescape (joinPath cfgSlash.torrentdir (String.mk (escSlashChars "a/b".data))),
         htmlUnescape (joinPath "/d" "N"))) :=
  C7_source_path_formula cfgSlash ⟨some "A", some 2020, some ⟨some []⟩⟩
    "FLAC" "Lossless" "a/b" "flac" "/d" "N" rfl rfl
    (by simp [renderName, cfgSlash, req, bind, Except.bind, artistNames, sortStrings,
              String.intercalate, pyFormat, pyFormatChars, pyFormatKey, dictGet, Except.map])


/-- C8 counterexample: placement is not idempotent.  With the destination
directory created by the first run, the second `cp -Rl` invocation copies
the source INTO it, at destination/basename(source): the tree gains the
nested duplicate `dest/Name/Album/f.flac`, so the result of two runs is
not content-identical to one run. -/
theorem C8_counterexample_nested_copy :
    (cpRl (cpRl fs0 ["td", "Album"] ["dest", "Name"]) ["td", "Album"] ["dest", "Name"]) ≠
      cpRl fs0 ["td", "Album"] ["dest", "Name"] ∧
    (["dest", "Name", "Album", "f.flac"], 7) ∈
      (cpRl (cpRl fs0 ["td", "Album"] ["dest", "Name"]) ["td", "Album"] ["dest", "Name"]).files ∧
    (["dest", "Name", "Album", "f.flac"], 7) ∉
      (cpRl fs0 ["td", "Album"] ["dest", "Name"]).files := by
  refine ⟨?_, ?_, ?_⟩ <;> decide

/-- C8 amended: a `cp -Rl` placement never removes, truncates or
re-targets an existing destination entry — the filesystem only ever gains
entries (first two conjuncts, for any filesystem and any source and
destination) — but re-running placement for an already-placed release is
not a no-op: with the destination directory now existing, the second run
adds a nested duplicate copy at destination/basename(source), as the
concrete third conjunct shows. -/
theorem C8_cp_gains_only (fs : FileSys) (src dest : List String) :
    (∀ e ∈ fs.files, e ∈ (cpRl fs src dest).files) ∧
    (∀ d ∈ fs.dirs, d ∈ (cpRl fs src dest).dirs) ∧
    (cpRl (cpRl fs0 ["td", "Album"] ["dest", "Name"]) ["td", "Album"] ["dest", "Name"]).files =
      (cpRl fs0 ["td", "Album"] ["dest", "Name"]).files ++
        [(["dest", "Name", "Album", "f.flac"], 7)] := by
  refine ⟨?_, ?_, by decide⟩
  · intro e he
    exact List.mem_append_left _ he
  · intro d hd
    exact List.mem_append_left _ hd


/-- Stripping a literal off the input that starts with it leaves the rest. -/
theorem stripLit_append : ∀ l cs : List Char, stripLit l (l ++ cs) = some cs := by
  intro l
  induction l with
  | nil => intro cs; rfl
  | cons a as ih => intro cs; simp [stripLit, ih]

/-- A digit run followed by a non-digit (or nothing) is exactly what
`takeWhile isDigit` takes and `dropWhile isDigit` drops. -/
theorem digits_take_drop (ds rest : List Char) (hds : ∀ c ∈ ds, c.isDigit = true)
    (hrest : ∀ c, rest.head? = some c → c.isDigit = false) :
    (ds ++ rest).takeWhile Char.isDigit = ds ∧ (ds ++ rest).dropWhile Char.isDigit = rest := by
  induction ds with
  | nil =>
    cases rest with
    | nil => exact ⟨rfl, rfl⟩
    | cons r rs =>
      have hr : r.isDigit = false := hrest r rfl
      simp [List.takeWhile, List.dropWhile, hr]
  | cons d ds ih =>
    have hd : d.isDigit = true := hds d (List.mem_cons_self d ds)
    have ih' := ih (fun c hc => hds c (List.mem_cons_of_mem d hc))
    simp [List.takeWhile, List.dropWhile, hd, ih'.1, ih'.2]

/-- The scraping pattern does not match at a position that does not start
with the letter t. -/
theorem matchSnatchAt_not_t (c : Char) (cs : List Char) (hc : c ≠ 't') :
    matchSnatchAt (c :: cs) = none := by
  have : stripLit litTorrentsId (c :: cs) = none := by
    simp [litTorrentsId, stripLit, hc]
  simp [matchSnatchAt, this]

/-- The scan skips markup that cannot start a match. -/
theorem scanSnatches_skip (f rest : List Char) (hf : ∀ c ∈ f, c ≠ 't') :
    scanSnatches (f ++ rest) = scanSnatches rest := by
  induction f with
  | nil => rfl
  | cons c f ih =>
    have hc : c ≠ 't' := hf c (List.mem_cons_self c f)
    have ih' := ih (fun x hx => hf x (List.mem_cons_of_mem c hx))
    rw [List.cons_append, scanSnatches, matchSnatchAt_not_t c (f ++ rest) hc]
    exact ih'

/-- One scan step at a matching position. -/
theorem scanSnatches_cons_match (l : List Char) (p : Nat × Nat) (rem : List Char)
    (hne : l ≠ []) (hm : matchSnatchAt l = some (p, rem)) :
    scanSnatches l = p :: scanSnatches rem := by
  cases l with
  | nil => exact absurd rfl hne
  | cons c cs => rw [scanSnatches, hm]

/-- The scraping pattern matches exactly one occurrence and leaves the
input after it. -/
theorem matchSnatchAt_occ (ds1 ds2 tail : List Char)
    (h1ne : ds1 ≠ []) (h1d : ∀ c ∈ ds1, c.isDigit = true)
    (h2ne : ds2 ≠ []) (h2d : ∀ c ∈ ds2, c.isDigit = true)
    (htail : ∀ c, tail.head? = some c → c.isDigit = false) :
    matchSnatchAt (snatchOcc ds1 ds2 ++ tail) =
      some ((digitsToNat ds1, digitsToNat ds2), tail) := by
  have hs1 : stripLit litTorrentsId (snatchOcc ds1 ds2 ++ tail) =
      some (ds1 ++ (litAmpTorrentid ++ (ds2 ++ tail))) := by
    rw [snatchOcc]
    rw [show litTorrentsId ++ ds1 ++ litAmpTorrentid ++ ds2 ++ tail =
        litTorrentsId ++ (ds1 ++ (litAmpTorrentid ++ (ds2 ++ tail))) by simp [List.append_assoc]]
    exact stripLit_append _ _
  have hamp : ∀ c, (litAmpTorrentid ++ (ds2 ++ tail)).head? = some c → c.isDigit = false := by
    intro c hc
    simp [litAmpTorrentid] at hc
    rw [← hc]
    decide
  have htd1 := digits_take_drop ds1 (litAmpTorrentid ++ (ds2 ++ tail)) h1d hamp
  have hs2 : stripLit litAmpTorrentid (litAmpTorrentid ++ (ds2 ++ tail)) =
      some (ds2 ++ tail) := stripLit_append _ _
  have htd2 := digits_take_drop ds2 tail h2d htail
  cases ds1 with
  | nil => exact absurd rfl h1ne
  | cons d1 ds1' =>
    cases ds2 with
    | nil => exact absurd rfl h2ne
    | cons d2 ds2' =>
      simp only [matchSnatchAt, hs1, htd1.1, htd1.2, hs2, htd2.1, htd2.2]

/-- The head of the markup-then-occurrences continuation is never a
digit. -/
theorem snatchTail_head_not_digit (f : List Char)
    (hf : inertMarkup f) (items : List ((List Char × List Char) × List Char)) :
    ∀ c, (f ++ snatchTail items).head? = some c → c.isDigit = false := by
  intro c hc
  cases f with
  | cons c0 f' =>
    simp at hc
    rw [← hc]
    exact (hf c0 (List.mem_cons_self c0 f')).2
  | nil =>
    cases items with
    | nil => simp [snatchTail] at hc
    | cons it rest =>
      simp [snatchTail, snatchOcc, litTorrentsId] at hc
      rw [← hc]
      decide

/-- C5: scraping a page body that holds the occurrences of `items` (each
`((groupid digits, torrentid digits), trailing markup)`) interspersed with
inert markup yields exactly one (releaseGroupId, torrentId) integer pair
per occurrence, in body order, duplicates kept verbatim. -/
theorem C5_scrape_exact (f0 : List Char)
    (items : List ((List Char × List Char) × List Char)) :
    inertMarkup f0 → (∀ it ∈ items, goodItem it) →
    readPageSnatches (String.mk (f0 ++ snatchTail items)) =
      items.map (fun it => (digitsToNat it.1.1, digitsToNat it.1.2)) := by
  intro hf0 hitems
  show scanSnatches (f0 ++ snatchTail items) = _
  rw [scanSnatches_skip f0 _ (fun c hc => (hf0 c hc).1)]
  clear hf0
  induction items with
  | nil => simp [snatchTail, scanSnatches]
  | cons it rest ih =>
    obtain ⟨h1ne, h1d, h2ne, h2d, hinert⟩ := hitems it (List.mem_cons_self it rest)
    have hrest : ∀ x ∈ rest, goodItem x :=
      fun x hx => hitems x (List.mem_cons_of_mem it hx)
    have htail := snatchTail_head_not_digit it.2 hinert rest
    have hm := matchSnatchAt_occ it.1.1 it.1.2 (it.2 ++ snatchTail rest)
      h1ne h1d h2ne h2d htail
    have hne : snatchOcc it.1.1 it.1.2 ++ (it.2 ++ snatchTail rest) ≠ [] := by
      simp [snatchOcc, litTorrentsId]
    rw [show snatchTail (it :: rest) =
        snatchOcc it.1.1 it.1.2 ++ (it.2 ++ snatchTail rest) by
      simp [snatchTail, List.append_assoc]]
    rw [scanSnatches_cons_match _ _ _ hne hm]
    rw [scanSnatches_skip it.2 _ (fun c hc => (hinert c hc).1)]
    rw [ih hrest]
    rfl

/-- C5 witness: two identical occurrences separated and prefixed by inert
markup scan to two identical integer pairs. -/
theorem C5_scrape_exact_witness :
    readPageSnatches (String.mk ("<a>".data ++ snatchTail
      [((['1', '2'], ['3', '4']), "#x".data), ((['1', '2'], ['3', '4']), [])]))
      = [(12, 34), (12, 34)] :=
  C5_scrape_exact "<a>".data
    [((['1', '2'], ['3', '4']), "#x".data), ((['1', '2'], ['3', '4']), [])]
    (by simp only [inertMarkup]; decide)
    (by simp only [goodItem, inertMarkup]; decide)

end GazelleSortModel
